import Mathlib

set_option linter.unusedVariables false

/-!
Verification of the `pakr-managedrawfd` crate (src/lib.rs): managed raw file
descriptors with auto-close on drop and two duplication policies.

The OS is modelled explicitly: a descriptor table mapping open descriptor
numbers to unique open-ids (one id per successful open of a table slot), a
trace of every invocation of the `close`/`dup`/`dup2` primitives, the
last-OS-error cell, and an oracle deciding which `dup`/`dup2` attempts fail
with resource exhaustion.  The library types `AutoClosingFD`, `DuplicatingFD`
and `SharedFD` are translated function-by-function from the source; stateful
Rust code becomes explicit `Sys`-passing, panics become `none`.
-/

/-- One invocation of an OS primitive.  `closedO fd oid` is a `close(fd)` call
that released the open descriptor instance `oid`; `closedBad fd` is a
`close(fd)` call on a number that was not open (EBADF).  `res = -1` marks a
failed `dup`/`dup2`. -/
inductive Ev where
  | closedO (fd : Int) (oid : Nat)
  | closedBad (fd : Int)
  | dupEv (fd : Int) (res : Int)
  | dup2Ev (src : Int) (tgt : Int) (res : Int)
deriving DecidableEq, Repr

/-- OS state: open-descriptor table (number, open-id), fresh open-id counter,
`errno` cell, oracle of forced `dup`/`dup2` failures, and the trace of
primitive invocations. -/
structure Sys where
  table : List (Int × Nat)
  nextId : Nat
  errno : Int
  failDup : List Bool
  trace : List Ev
deriving DecidableEq, Repr

/-- First binding of a descriptor number in the table. -/
def lookupFd : List (Int × Nat) → Int → Option Nat
  | [], _ => none
  | (k, v) :: rest, fd => if k = fd then some v else lookupFd rest fd

/-- Remove every binding of a descriptor number. -/
def eraseFd : List (Int × Nat) → Int → List (Int × Nat)
  | [], _ => []
  | (k, v) :: rest, fd =>
      if k = fd then eraseFd rest fd else (k, v) :: eraseFd rest fd

/-- Upper bound (at least 0) on the descriptor numbers in the table. -/
def maxKey : List (Int × Nat) → Int
  | [] => 0
  | (k, _) :: rest => max k (maxKey rest)

def EBADF : Int := 9

def EMFILE : Int := 24

/-- A descriptor number not currently in the table (the model's stand-in for
the POSIX guarantee that `dup` returns a descriptor distinct from every open
one); always non-negative. -/
def Sys.freshFd (s : Sys) : Int := maxKey s.table + 1

/-- `libc::close`: releases the slot if open; the return value is ignored by
the library, but the invocation is recorded in the trace either way. -/
def Sys.closeFd (s : Sys) (fd : Int) : Sys :=
  match lookupFd s.table fd with
  | some oid =>
      { s with table := eraseFd s.table fd,
               trace := s.trace ++ [Ev.closedO fd oid] }
  | none =>
      { s with errno := EBADF, trace := s.trace ++ [Ev.closedBad fd] }

/-- `libc::dup`: fails with EBADF on a closed number, with EMFILE when the
oracle forces exhaustion, and otherwise opens a fresh number (fresh open-id)
referring to the same resource.  Returns `-1` on failure. -/
def Sys.dup (s : Sys) (fd : Int) : Int × Sys :=
  match lookupFd s.table fd with
  | none =>
      (-1, { s with errno := EBADF, trace := s.trace ++ [Ev.dupEv fd (-1)] })
  | some _ =>
      if s.failDup.headD false then
        (-1, { s with errno := EMFILE, failDup := s.failDup.tail,
                      trace := s.trace ++ [Ev.dupEv fd (-1)] })
      else
        (s.freshFd,
          { s with table := (s.freshFd, s.nextId) :: s.table,
                   nextId := s.nextId + 1,
                   failDup := s.failDup.tail,
                   trace := s.trace ++ [Ev.dupEv fd s.freshFd] })

/-- `libc::dup2 src tgt`: fails with EBADF on a bad source or negative target;
a no-op (beyond reporting `tgt`) when `src = tgt`; otherwise silently releases
whatever `tgt` held and rebinds `tgt` as a new open instance of `src`'s
resource.  Returns `-1` on failure. -/
def Sys.dup2 (s : Sys) (src tgt : Int) : Int × Sys :=
  if tgt < 0 then
    (-1, { s with errno := EBADF, trace := s.trace ++ [Ev.dup2Ev src tgt (-1)] })
  else
    match lookupFd s.table src with
    | none =>
        (-1, { s with errno := EBADF,
                      trace := s.trace ++ [Ev.dup2Ev src tgt (-1)] })
    | some _ =>
        if src = tgt then
          (tgt, { s with trace := s.trace ++ [Ev.dup2Ev src tgt tgt] })
        else if s.failDup.headD false then
          (-1, { s with errno := EMFILE, failDup := s.failDup.tail,
                        trace := s.trace ++ [Ev.dup2Ev src tgt (-1)] })
        else
          (tgt, { s with table := (tgt, s.nextId) :: eraseFd s.table tgt,
                         nextId := s.nextId + 1,
                         failDup := s.failDup.tail,
                         trace := s.trace ++ [Ev.dup2Ev src tgt tgt] })

/-- An external open (e.g. `File::open` by the caller): a fresh number bound
to a fresh open-id, no library-relevant trace event. -/
def Sys.openNew (s : Sys) : Sys :=
  { s with table := (s.freshFd, s.nextId) :: s.table, nextId := s.nextId + 1 }

/-- Open-ids released by `close` invocations in a trace. -/
def closedIds (tr : List Ev) : List Nat :=
  tr.filterMap fun e =>
    match e with
    | Ev.closedO _ oid => some oid
    | _ => none

/-- Number of `close` invocations naming descriptor number `fd`. -/
def countCloses (tr : List Ev) (fd : Int) : Nat :=
  (tr.filter fun e =>
    match e with
    | Ev.closedO n _ => n == fd
    | Ev.closedBad n => n == fd
    | _ => false).length

/-! The library, from `src/lib.rs`. -/

/-- `struct AutoClosingFD(RawFd)`. -/
structure AutoClosingFD where
  fd : Int
deriving DecidableEq, Repr

/-- `impl AsRawFd for AutoClosingFD`. -/
def AutoClosingFD.as_raw_fd (h : AutoClosingFD) : Int := h.fd

/-- `AutoClosingFD::wrap`: packs the value, no validation, no failure mode. -/
def AutoClosingFD.wrap (fd : Int) : AutoClosingFD := ⟨fd⟩

/-- `AutoClosingFD::dup_wrap`: `libc::dup(fd)`, error with `last_os_error`
when it returns `-1`, else wrap the new handle. -/
def AutoClosingFD.dup_wrap (fd : Int) (s : Sys) : Except Int AutoClosingFD × Sys :=
  let r := s.dup fd
  if r.1 = -1 then (Except.error r.2.errno, r.2)
  else (Except.ok (AutoClosingFD.wrap r.1), r.2)

/-- `impl Drop for AutoClosingFD`: `if self.0 >= 0 { close(self.0); self.0 = -1 }`. -/
def AutoClosingFD.drop (h : AutoClosingFD) (s : Sys) : AutoClosingFD × Sys :=
  if 0 ≤ h.fd then (⟨-1⟩, s.closeFd h.fd) else (h, s)

/-- `pub struct DuplicatingFD(AutoClosingFD)`. -/
structure DuplicatingFD where
  inner : AutoClosingFD
deriving DecidableEq, Repr

/-- `impl AsRawFd for DuplicatingFD`. -/
def DuplicatingFD.as_raw_fd (h : DuplicatingFD) : Int := h.inner.as_raw_fd

/-- `DuplicatingFD::wrap`. -/
def DuplicatingFD.wrap (fd : Int) : DuplicatingFD := ⟨AutoClosingFD.wrap fd⟩

/-- `DuplicatingFD::dup_wrap`: delegates to `AutoClosingFD::dup_wrap` via `?`. -/
def DuplicatingFD.dup_wrap (fd : Int) (s : Sys) : Except Int DuplicatingFD × Sys :=
  match AutoClosingFD.dup_wrap fd s with
  | (Except.ok h, s') => (Except.ok ⟨h⟩, s')
  | (Except.error e, s') => (Except.error e, s')

/-- `DuplicatingFD::dup`: `libc::dup(self.as_raw_fd())`, error on `-1`, else
`Self::wrap(new_handle)`. -/
def DuplicatingFD.dup (h : DuplicatingFD) (s : Sys) : Except Int DuplicatingFD × Sys :=
  let r := s.dup h.as_raw_fd
  if r.1 = -1 then (Except.error r.2.errno, r.2)
  else (Except.ok (DuplicatingFD.wrap r.1), r.2)

/-- `impl Clone for DuplicatingFD`: `self.dup().unwrap()`; `none` is the
panic of `unwrap` on an `Err`. -/
def DuplicatingFD.clone (h : DuplicatingFD) (s : Sys) : Option DuplicatingFD × Sys :=
  match DuplicatingFD.dup h s with
  | (Except.ok h2, s') => (some h2, s')
  | (Except.error _, s') => (none, s')

/-- `DuplicatingFD::clone_from`: asserts both descriptors non-negative
(`none` is the assertion/`panic!` abort); when the numbers differ, closes
`self`'s descriptor then `dup2`s the source onto the same number, panicking
if `dup2` returns `-1`; when equal, does nothing. -/
def DuplicatingFD.clone_from (self source : DuplicatingFD) (s : Sys) :
    Option DuplicatingFD × Sys :=
  if source.as_raw_fd < 0 then (none, s)
  else if self.as_raw_fd < 0 then (none, s)
  else if source.as_raw_fd ≠ self.as_raw_fd then
    let s1 := s.closeFd self.as_raw_fd
    let r := s1.dup2 source.as_raw_fd self.as_raw_fd
    if r.1 = -1 then (none, r.2) else (some self, r.2)
  else (some self, s)

/-- Dropping a `DuplicatingFD` drops its inner `AutoClosingFD`. -/
def DuplicatingFD.drop (h : DuplicatingFD) (s : Sys) : DuplicatingFD × Sys :=
  let r := AutoClosingFD.drop h.inner s
  (⟨r.1⟩, r.2)

/-- `pub struct SharedFD(Arc<AutoClosingFD>)`, modelled as the shared cell
together with its strong count: each live `SharedFD` instance is one unit of
`rc`.  `Arc::clone` bumps `rc`; dropping the last instance drops the payload. -/
structure SharedFD where
  rc : Nat
  payload : AutoClosingFD
deriving DecidableEq, Repr

/-- `impl AsRawFd for SharedFD`. -/
def SharedFD.as_raw_fd (h : SharedFD) : Int := h.payload.as_raw_fd

/-- `SharedFD::wrap`: `Arc::new(AutoClosingFD::wrap(fd))`, strong count 1. -/
def SharedFD.wrap (fd : Int) : SharedFD := ⟨1, AutoClosingFD.wrap fd⟩

/-- `SharedFD::dup_wrap`: `Arc::new(AutoClosingFD::dup_wrap(fd)?)`. -/
def SharedFD.dup_wrap (fd : Int) (s : Sys) : Except Int SharedFD × Sys :=
  match AutoClosingFD.dup_wrap fd s with
  | (Except.ok h, s') => (Except.ok ⟨1, h⟩, s')
  | (Except.error e, s') => (Except.error e, s')

/-- `SharedFD::dup`: `Ok(SharedFD(self.0.clone()))` — always succeeds, no OS
call, one more strong reference to the same cell. -/
def SharedFD.dup (h : SharedFD) (s : Sys) : Except Int SharedFD × Sys :=
  (Except.ok { h with rc := h.rc + 1 }, s)

/-- `impl Clone for SharedFD`: `self.dup().unwrap()`. -/
def SharedFD.clone (h : SharedFD) (s : Sys) : Option SharedFD × Sys :=
  match SharedFD.dup h s with
  | (Except.ok h2, s') => (some h2, s')
  | (Except.error _, s') => (none, s')

/-- Dropping one `SharedFD` instance: decrement the strong count; the last
drop (count 1 → 0) drops the shared `AutoClosingFD`. -/
def SharedFD.dropInstance (h : SharedFD) (s : Sys) : SharedFD × Sys :=
  match h.rc with
  | 0 => (h, s)
  | 1 =>
      let r := AutoClosingFD.drop h.payload s
      ({ rc := 0, payload := r.1 }, r.2)
  | n + 2 => ({ h with rc := n + 1 }, s)

/-- Iterated instance drops. -/
def dropN : Nat → SharedFD × Sys → SharedFD × Sys
  | 0, cs => cs
  | k + 1, cs => dropN k (SharedFD.dropInstance cs.1 cs.2)

/-! Lifecycle semantics: every operation a client can perform on the two
handle variants, driven by an arbitrary command sequence. -/

/-- Client commands.  `openF` is an external open populating the descriptor
table (e.g. `File::open` by the caller); handle-indexed commands are no-ops
on out-of-range indices; a panicking operation (`clone` on a failed `dup`,
`clone_from` assertion or `dup2` failure) keeps the OS effects it performed
before panicking. -/
inductive Cmd where
  | openF
  | wrapD (fd : Int)
  | dupWrapD (fd : Int)
  | dupD (i : Nat)
  | cloneD (i : Nat)
  | cloneFromD (i j : Nat)
  | dropD (i : Nat)
  | wrapS (fd : Int)
  | dupWrapS (fd : Int)
  | dupS (i : Nat)
  | dropS (i : Nat)
deriving DecidableEq, Repr

/-- A world: the OS state, the live `DuplicatingFD` handles, and the live
`SharedFD` cells (each cell's `rc` counts its live instances). -/
structure World where
  sys : Sys
  dhs : List DuplicatingFD
  cells : List SharedFD
deriving DecidableEq, Repr

def World.step (w : World) (c : Cmd) : World :=
  match c with
  | Cmd.openF => { w with sys := w.sys.openNew }
  | Cmd.wrapD fd => { w with dhs := w.dhs ++ [DuplicatingFD.wrap fd] }
  | Cmd.dupWrapD fd =>
      match DuplicatingFD.dup_wrap fd w.sys with
      | (Except.ok h, s') => { w with sys := s', dhs := w.dhs ++ [h] }
      | (Except.error _, s') => { w with sys := s' }
  | Cmd.dupD i =>
      match w.dhs.get? i with
      | none => w
      | some h =>
          match DuplicatingFD.dup h w.sys with
          | (Except.ok h2, s') => { w with sys := s', dhs := w.dhs ++ [h2] }
          | (Except.error _, s') => { w with sys := s' }
  | Cmd.cloneD i =>
      match w.dhs.get? i with
      | none => w
      | some h =>
          match DuplicatingFD.clone h w.sys with
          | (some h2, s') => { w with sys := s', dhs := w.dhs ++ [h2] }
          | (none, s') => { w with sys := s' }
  | Cmd.cloneFromD i j =>
      match w.dhs.get? i, w.dhs.get? j with
      | some tgt, some src =>
          match DuplicatingFD.clone_from tgt src w.sys with
          | (some tgt2, s') => { w with sys := s', dhs := w.dhs.set i tgt2 }
          | (none, s') => { w with sys := s' }
      | _, _ => w
  | Cmd.dropD i =>
      match w.dhs.get? i with
      | none => w
      | some h =>
          { w with sys := (DuplicatingFD.drop h w.sys).2,
                   dhs := w.dhs.eraseIdx i }
  | Cmd.wrapS fd => { w with cells := w.cells ++ [SharedFD.wrap fd] }
  | Cmd.dupWrapS fd =>
      match SharedFD.dup_wrap fd w.sys with
      | (Except.ok h, s') => { w with sys := s', cells := w.cells ++ [h] }
      | (Except.error _, s') => { w with sys := s' }
  | Cmd.dupS i =>
      match w.cells.get? i with
      | none => w
      | some cell =>
          match SharedFD.dup cell w.sys with
          | (Except.ok cell2, s') =>
              { w with sys := s', cells := w.cells.set i cell2 }
          | (Except.error _, s') => { w with sys := s' }
  | Cmd.dropS i =>
      match w.cells.get? i with
      | none => w
      | some cell =>
          let r := SharedFD.dropInstance cell w.sys
          { w with sys := r.2, cells := w.cells.set i r.1 }

def World.run (cmds : List Cmd) (w : World) : World :=
  cmds.foldl World.step w

/-- Initial world: no open descriptors, no handles, a chosen failure oracle. -/
def World.init (oracle : List Bool) : World :=
  ⟨⟨[], 0, 0, oracle, []⟩, [], []⟩

/-! Table and trace facts. -/

/-- Open-ids currently in a descriptor table. -/
def tabIds (tab : List (Int × Nat)) : List Nat := tab.map Prod.snd

/-! The exactly-once-close invariant over the OS state: open-ids in the table
are fresh and distinct, each `close` release names a distinct open-id, and no
open descriptor instance has already been released. -/

structure SysInv (s : Sys) : Prop where
  tabLt : ∀ oid ∈ tabIds s.table, oid < s.nextId
  clLt : ∀ oid ∈ closedIds s.trace, oid < s.nextId
  tabNodup : (tabIds s.table).Nodup
  clNodup : (closedIds s.trace).Nodup
  disj : ∀ oid ∈ tabIds s.table, oid ∉ closedIds s.trace

theorem closedIds_append (t1 t2 : List Ev) :
    closedIds (t1 ++ t2) = closedIds t1 ++ closedIds t2 :=
  List.filterMap_append t1 t2 _

@[simp] theorem closedIds_nil : closedIds [] = [] := rfl

@[simp] theorem closedIds_closedO (fd : Int) (oid : Nat) :
    closedIds [Ev.closedO fd oid] = [oid] := rfl

@[simp] theorem closedIds_closedBad (fd : Int) :
    closedIds [Ev.closedBad fd] = [] := rfl

@[simp] theorem closedIds_dupEv (fd res : Int) :
    closedIds [Ev.dupEv fd res] = [] := rfl

@[simp] theorem closedIds_dup2Ev (src tgt res : Int) :
    closedIds [Ev.dup2Ev src tgt res] = [] := rfl

theorem lookupFd_mem {tab : List (Int × Nat)} {fd : Int} {oid : Nat}
    (h : lookupFd tab fd = some oid) : (fd, oid) ∈ tab := by
  induction tab with
  | nil => simp [lookupFd] at h
  | cons kv rest ih =>
      obtain ⟨k, v⟩ := kv
      by_cases hk : k = fd
      · subst hk
        simp [lookupFd] at h
        subst h
        exact List.mem_cons_self _ _
      · simp [lookupFd, hk] at h
        exact List.mem_cons_of_mem _ (ih h)

theorem eraseFd_sublist (tab : List (Int × Nat)) (fd : Int) :
    List.Sublist (eraseFd tab fd) tab := by
  induction tab with
  | nil => simp [eraseFd]
  | cons kv rest ih =>
      obtain ⟨k, v⟩ := kv
      by_cases hk : k = fd
      · simp only [eraseFd, if_pos hk]
        exact ih.cons _
      · simp only [eraseFd, if_neg hk]
        exact ih.cons₂ _

theorem lookupFd_eraseFd_ne (tab : List (Int × Nat)) {fd fd' : Int}
    (h : fd' ≠ fd) : lookupFd (eraseFd tab fd) fd' = lookupFd tab fd' := by
  induction tab with
  | nil => rfl
  | cons kv rest ih =>
      obtain ⟨k, v⟩ := kv
      by_cases hk : k = fd
      · subst hk
        have hk' : k ≠ fd' := fun hc => h hc.symm
        simp [eraseFd, lookupFd, hk', ih]
      · simp only [eraseFd, if_neg hk, lookupFd]
        by_cases hk' : k = fd'
        · simp [hk']
        · simp [hk', ih]

theorem lookupFd_eraseFd_self (tab : List (Int × Nat)) (fd : Int) :
    lookupFd (eraseFd tab fd) fd = none := by
  induction tab with
  | nil => rfl
  | cons kv rest ih =>
      obtain ⟨k, v⟩ := kv
      by_cases hk : k = fd
      · simp [eraseFd, hk, ih]
      · simp [eraseFd, lookupFd, hk, ih]

theorem lookupFd_not_mem_eraseFd {tab : List (Int × Nat)} {fd : Int} {oid : Nat}
    (hnd : (tabIds tab).Nodup) (h : lookupFd tab fd = some oid) :
    oid ∉ tabIds (eraseFd tab fd) := by
  induction tab with
  | nil => simp [lookupFd] at h
  | cons kv rest ih =>
      obtain ⟨k, v⟩ := kv
      simp only [tabIds, List.map_cons, List.nodup_cons] at hnd
      by_cases hk : k = fd
      · simp only [lookupFd, if_pos hk] at h
        cases h
        simp only [eraseFd, if_pos hk]
        intro hmem
        have hsub := ((eraseFd_sublist rest fd).map Prod.snd).subset
        exact hnd.1 (hsub hmem)
      · simp only [lookupFd, if_neg hk] at h
        simp only [eraseFd, if_neg hk, tabIds, List.map_cons, List.mem_cons]
        rintro (hv | hmem)
        · refine hnd.1 ?_
          rw [← hv]
          exact List.mem_map_of_mem Prod.snd (lookupFd_mem h)
        · exact ih hnd.2 h hmem

theorem mem_le_maxKey {tab : List (Int × Nat)} {kv : Int × Nat}
    (h : kv ∈ tab) : kv.1 ≤ maxKey tab := by
  induction tab with
  | nil => cases h
  | cons a rest ih =>
      obtain ⟨k, v⟩ := a
      rcases List.mem_cons.mp h with h | h
      · subst h
        exact le_max_left _ _
      · exact le_trans (ih h) (le_max_right _ _)

theorem maxKey_nonneg (tab : List (Int × Nat)) : 0 ≤ maxKey tab := by
  induction tab with
  | nil => exact le_refl 0
  | cons a rest ih =>
      obtain ⟨k, v⟩ := a
      exact le_trans ih (le_max_right _ _)

theorem lookupFd_eq_none_of_gt {tab : List (Int × Nat)} {fd : Int}
    (h : ∀ kv ∈ tab, kv.1 < fd) : lookupFd tab fd = none := by
  induction tab with
  | nil => rfl
  | cons kv rest ih =>
      obtain ⟨k, v⟩ := kv
      have hk : k ≠ fd := ne_of_lt (h (k, v) (List.mem_cons_self _ _))
      simp only [lookupFd, if_neg hk]
      exact ih fun p hp => h p (List.mem_cons_of_mem _ hp)

theorem lookupFd_freshFd (s : Sys) : lookupFd s.table s.freshFd = none :=
  lookupFd_eq_none_of_gt fun kv hkv =>
    lt_of_le_of_lt (mem_le_maxKey hkv) (lt_add_one _)

theorem freshFd_nonneg (s : Sys) : 0 ≤ s.freshFd :=
  le_trans (maxKey_nonneg s.table) (le_of_lt (lt_add_one _))

theorem lookupFd_freshFd_ne {s : Sys} {fd : Int} {oid : Nat}
    (h : lookupFd s.table fd = some oid) : s.freshFd ≠ fd := by
  intro hc
  rw [← hc, lookupFd_freshFd s] at h
  exact Option.noConfusion h


/-- Transition that leaves table, counter and close-releases unchanged. -/
theorem SysInv.same {s s' : Sys} (h : SysInv s)
    (ht : s'.table = s.table) (hn : s'.nextId = s.nextId)
    (hc : closedIds s'.trace = closedIds s.trace) : SysInv s' := by
  refine ⟨?_, ?_, ?_, ?_, ?_⟩
  · rw [ht, hn]
    exact h.tabLt
  · rw [hc, hn]
    exact h.clLt
  · rw [ht]
    exact h.tabNodup
  · rw [hc]
    exact h.clNodup
  · rw [ht, hc]
    exact h.disj

/-- Transition that binds a number to the fresh open-id over a sub-table and
bumps the counter, releasing nothing. -/
theorem SysInv.insertFresh {s s' : Sys} (h : SysInv s) {fd : Int}
    {tab' : List (Int × Nat)} (hsub : List.Sublist tab' s.table)
    (ht : s'.table = (fd, s.nextId) :: tab') (hn : s'.nextId = s.nextId + 1)
    (hc : closedIds s'.trace = closedIds s.trace) : SysInv s' := by
  have hsubIds := (hsub.map Prod.snd).subset
  refine ⟨?_, ?_, ?_, ?_, ?_⟩
  · intro oid hm
    rw [ht] at hm
    rw [hn]
    rcases List.mem_cons.mp hm with hm | hm
    · rw [hm]
      exact lt_add_one _
    · exact lt_trans (h.tabLt oid (hsubIds hm)) (lt_add_one _)
  · intro oid hm
    rw [hc] at hm
    rw [hn]
    exact lt_trans (h.clLt oid hm) (lt_add_one _)
  · rw [ht]
    refine List.Nodup.cons ?_ ((h.tabNodup).sublist (hsub.map Prod.snd))
    intro hm
    exact lt_irrefl _ (h.tabLt _ (hsubIds hm))
  · rw [hc]
    exact h.clNodup
  · intro oid hm
    rw [ht] at hm
    rw [hc]
    rcases List.mem_cons.mp hm with hm | hm
    · rw [hm]
      intro hcl
      exact lt_irrefl _ (h.clLt _ hcl)
    · exact h.disj oid (hsubIds hm)

/-- Transition that releases the looked-up open instance of `fd`. -/
theorem SysInv.closeStep {s s' : Sys} (h : SysInv s) {fd : Int} {oid : Nat}
    (hl : lookupFd s.table fd = some oid)
    (ht : s'.table = eraseFd s.table fd) (hn : s'.nextId = s.nextId)
    (hc : closedIds s'.trace = closedIds s.trace ++ [oid]) : SysInv s' := by
  have hsubIds := ((eraseFd_sublist s.table fd).map Prod.snd).subset
  have hoidTab : oid ∈ tabIds s.table :=
    List.mem_map_of_mem Prod.snd (lookupFd_mem hl)
  refine ⟨?_, ?_, ?_, ?_, ?_⟩
  · intro o hm
    rw [ht] at hm
    rw [hn]
    exact h.tabLt o (hsubIds hm)
  · intro o hm
    rw [hc] at hm
    rw [hn]
    rcases List.mem_append.mp hm with hm | hm
    · exact h.clLt o hm
    · rw [List.mem_singleton.mp hm]
      exact h.tabLt oid hoidTab
  · rw [ht]
    exact (h.tabNodup).sublist ((eraseFd_sublist s.table fd).map Prod.snd)
  · rw [hc]
    refine List.Nodup.append h.clNodup (List.nodup_singleton oid) ?_
    intro o ho hs
    rw [List.mem_singleton.mp hs] at ho
    exact h.disj oid hoidTab ho
  · intro o hm
    rw [ht] at hm
    rw [hc]
    intro hcl
    rcases List.mem_append.mp hcl with hcl | hcl
    · exact h.disj o (hsubIds hm) hcl
    · rw [List.mem_singleton.mp hcl] at hm
      exact lookupFd_not_mem_eraseFd h.tabNodup hl hm

/-! Preservation of the invariant by every OS primitive. -/

theorem sysInv_closeFd {s : Sys} (fd : Int) (h : SysInv s) :
    SysInv (s.closeFd fd) := by
  unfold Sys.closeFd
  cases hl : lookupFd s.table fd with
  | none =>
      exact h.same rfl rfl (by simp [closedIds_append])
  | some oid =>
      exact h.closeStep hl rfl rfl (by simp [closedIds_append])

theorem sysInv_dup {s : Sys} (fd : Int) (h : SysInv s) :
    SysInv (s.dup fd).2 := by
  unfold Sys.dup
  cases hl : lookupFd s.table fd with
  | none =>
      exact h.same rfl rfl (by simp [closedIds_append])
  | some oid =>
      by_cases ho : s.failDup.headD false = true
      · simp only [ho, if_true]
        exact h.same rfl rfl (by simp [closedIds_append])
      · simp only [ho, if_false]
        exact h.insertFresh (List.Sublist.refl _) rfl rfl
          (by simp [closedIds_append])

theorem sysInv_dup2 {s : Sys} (src tgt : Int) (h : SysInv s) :
    SysInv (s.dup2 src tgt).2 := by
  unfold Sys.dup2
  by_cases h0 : tgt < 0
  · simp only [h0, if_true]
    exact h.same rfl rfl (by simp [closedIds_append])
  · simp only [h0, if_false]
    cases hl : lookupFd s.table src with
    | none =>
        exact h.same rfl rfl (by simp [closedIds_append])
    | some oid =>
        by_cases he : src = tgt
        · simp only [he, if_pos rfl]
          exact h.same rfl rfl (by simp [closedIds_append])
        · simp only [if_neg he]
          by_cases ho : s.failDup.headD false = true
          · simp only [ho, if_true]
            exact h.same rfl rfl (by simp [closedIds_append])
          · simp only [ho, if_false]
            exact h.insertFresh (eraseFd_sublist s.table tgt) rfl rfl
              (by simp [closedIds_append])

theorem sysInv_openNew {s : Sys} (h : SysInv s) : SysInv s.openNew :=
  h.insertFresh (List.Sublist.refl _) rfl rfl rfl

/-! Second components of the fallible library operations. -/

theorem ac_dup_wrap_snd (fd : Int) (s : Sys) :
    (AutoClosingFD.dup_wrap fd s).2 = (s.dup fd).2 := by
  unfold AutoClosingFD.dup_wrap
  by_cases h : (s.dup fd).1 = -1 <;> simp [h]

theorem d_dup_wrap_snd (fd : Int) (s : Sys) :
    (DuplicatingFD.dup_wrap fd s).2 = (s.dup fd).2 := by
  unfold DuplicatingFD.dup_wrap
  rw [← ac_dup_wrap_snd fd s]
  rcases hr : AutoClosingFD.dup_wrap fd s with ⟨e, s'⟩
  cases e <;> simp

theorem d_dup_snd (h : DuplicatingFD) (s : Sys) :
    (DuplicatingFD.dup h s).2 = (s.dup h.as_raw_fd).2 := by
  unfold DuplicatingFD.dup
  by_cases hc : (s.dup h.as_raw_fd).1 = -1 <;> simp [hc]

theorem d_clone_snd (h : DuplicatingFD) (s : Sys) :
    (DuplicatingFD.clone h s).2 = (DuplicatingFD.dup h s).2 := by
  unfold DuplicatingFD.clone
  rcases hr : DuplicatingFD.dup h s with ⟨e, s'⟩
  cases e <;> simp

theorem s_dup_wrap_snd (fd : Int) (s : Sys) :
    (SharedFD.dup_wrap fd s).2 = (s.dup fd).2 := by
  unfold SharedFD.dup_wrap
  rw [← ac_dup_wrap_snd fd s]
  rcases hr : AutoClosingFD.dup_wrap fd s with ⟨e, s'⟩
  cases e <;> simp

/-! Preservation of the invariant by every library operation. -/

theorem sysInv_acDrop (h : AutoClosingFD) {s : Sys} (hs : SysInv s) :
    SysInv (AutoClosingFD.drop h s).2 := by
  unfold AutoClosingFD.drop
  by_cases hc : 0 ≤ h.fd
  · rw [if_pos hc]
    exact sysInv_closeFd h.fd hs
  · rw [if_neg hc]
    exact hs

theorem sysInv_dDrop (h : DuplicatingFD) {s : Sys} (hs : SysInv s) :
    SysInv (DuplicatingFD.drop h s).2 :=
  sysInv_acDrop h.inner hs

theorem sysInv_cloneFrom (self source : DuplicatingFD) {s : Sys}
    (hs : SysInv s) : SysInv (DuplicatingFD.clone_from self source s).2 := by
  unfold DuplicatingFD.clone_from
  by_cases h1 : source.as_raw_fd < 0
  · rw [if_pos h1]
    exact hs
  · rw [if_neg h1]
    by_cases h2 : self.as_raw_fd < 0
    · rw [if_pos h2]
      exact hs
    · rw [if_neg h2]
      by_cases h3 : source.as_raw_fd ≠ self.as_raw_fd
      · rw [if_pos h3]
        have hinner :
            SysInv ((s.closeFd self.as_raw_fd).dup2 source.as_raw_fd
              self.as_raw_fd).2 :=
          sysInv_dup2 _ _ (sysInv_closeFd _ hs)
        by_cases h4 :
            ((s.closeFd self.as_raw_fd).dup2 source.as_raw_fd
              self.as_raw_fd).1 = -1
        · rw [if_pos h4]
          exact hinner
        · rw [if_neg h4]
          exact hinner
      · rw [if_neg h3]
        exact hs

theorem sysInv_dropInstance (c : SharedFD) {s : Sys} (hs : SysInv s) :
    SysInv (SharedFD.dropInstance c s).2 := by
  unfold SharedFD.dropInstance
  cases hc : c.rc with
  | zero => exact hs
  | succ n =>
      cases n with
      | zero => exact sysInv_acDrop c.payload hs
      | succ m => exact hs

theorem sysInv_step (c : Cmd) {w : World} (hs : SysInv w.sys) :
    SysInv (World.step w c).sys := by
  cases c with
  | openF => exact sysInv_openNew hs
  | wrapD fd => exact hs
  | dupWrapD fd =>
      simp only [World.step]
      rcases hr : DuplicatingFD.dup_wrap fd w.sys with ⟨e, s'⟩
      have h2 : s' = (w.sys.dup fd).2 := by
        rw [← d_dup_wrap_snd fd w.sys, hr]
      subst h2
      cases e <;> exact sysInv_dup fd hs
  | dupD i =>
      simp only [World.step]
      cases hg : w.dhs.get? i with
      | none => exact hs
      | some h =>
          dsimp only
          rcases hr : DuplicatingFD.dup h w.sys with ⟨e, s'⟩
          have h2 : s' = (w.sys.dup h.as_raw_fd).2 := by
            rw [← d_dup_snd h w.sys, hr]
          subst h2
          cases e <;> exact sysInv_dup _ hs
  | cloneD i =>
      simp only [World.step]
      cases hg : w.dhs.get? i with
      | none => exact hs
      | some h =>
          dsimp only
          rcases hr : DuplicatingFD.clone h w.sys with ⟨e, s'⟩
          have h2 : s' = (w.sys.dup h.as_raw_fd).2 := by
            rw [← d_dup_snd h w.sys,
              ← d_clone_snd h w.sys, hr]
          subst h2
          cases e <;> exact sysInv_dup _ hs
  | cloneFromD i j =>
      simp only [World.step]
      cases hg : w.dhs.get? i with
      | none => exact hs
      | some tgt =>
          cases hg2 : w.dhs.get? j with
          | none => exact hs
          | some src =>
              dsimp only
              rcases hr : DuplicatingFD.clone_from tgt src w.sys with ⟨e, s'⟩
              have h2 : s' = (DuplicatingFD.clone_from tgt src w.sys).2 := by
                rw [hr]
              subst h2
              cases e <;> exact sysInv_cloneFrom tgt src hs
  | dropD i =>
      simp only [World.step]
      cases hg : w.dhs.get? i with
      | none => exact hs
      | some h => exact sysInv_dDrop h hs
  | wrapS fd => exact hs
  | dupWrapS fd =>
      simp only [World.step]
      rcases hr : SharedFD.dup_wrap fd w.sys with ⟨e, s'⟩
      have h2 : s' = (w.sys.dup fd).2 := by
        rw [← s_dup_wrap_snd fd w.sys, hr]
      subst h2
      cases e <;> exact sysInv_dup fd hs
  | dupS i =>
      simp only [World.step]
      cases hg : w.cells.get? i with
      | none => exact hs
      | some cell => exact hs
  | dropS i =>
      simp only [World.step]
      cases hg : w.cells.get? i with
      | none => exact hs
      | some cell => exact sysInv_dropInstance cell hs


theorem sysInv_run (cmds : List Cmd) (w : World) (hs : SysInv w.sys) :
    SysInv (World.run cmds w).sys := by
  induction cmds generalizing w with
  | nil => exact hs
  | cons c rest ih => exact ih _ (sysInv_step c hs)

theorem sysInv_init (oracle : List Bool) : SysInv (World.init oracle).sys := by
  refine ⟨?_, ?_, ?_, ?_, ?_⟩ <;> simp [World.init, tabIds, closedIds]

/-! Iterated drops of `SharedFD` instances. -/

theorem dropInstance_ge2 (c : SharedFD) (s : Sys) (h : 2 ≤ c.rc) :
    SharedFD.dropInstance c s = ({ c with rc := c.rc - 1 }, s) := by
  obtain ⟨m, hm⟩ : ∃ m, c.rc = m + 2 := ⟨c.rc - 2, by omega⟩
  rcases c with ⟨rc, p⟩
  simp only at hm
  subst hm
  rfl

theorem dropN_stay (k : Nat) (c : SharedFD) (s : Sys) (hk : k < c.rc) :
    dropN k (c, s) = ({ c with rc := c.rc - k }, s) := by
  induction k generalizing c with
  | zero => rfl
  | succ k ih =>
      have h2 : 2 ≤ c.rc := by omega
      have hd : dropN (k + 1) (c, s) = dropN k (SharedFD.dropInstance c s) :=
        rfl
      rw [hd, dropInstance_ge2 c s h2,
        ih { c with rc := c.rc - 1 } (show k < c.rc - 1 by omega)]
      have h3 : c.rc - 1 - k = c.rc - (k + 1) := by omega
      rw [h3]

theorem dropN_add (a b : Nat) (cs : SharedFD × Sys) :
    dropN (a + b) cs = dropN b (dropN a cs) := by
  induction a generalizing cs with
  | zero =>
      rw [Nat.zero_add]
      rfl
  | succ a ih =>
      have h1 : a + 1 + b = (a + b) + 1 := by omega
      rw [h1]
      exact ih _

theorem dropN_last (c : SharedFD) (s : Sys) (h1 : 0 < c.rc) :
    dropN c.rc (c, s)
      = (⟨0, (AutoClosingFD.drop c.payload s).1⟩,
          (AutoClosingFD.drop c.payload s).2) := by
  have hsplit : c.rc = (c.rc - 1) + 1 := by omega
  rw [hsplit, dropN_add (c.rc - 1) 1 (c, s),
    dropN_stay (c.rc - 1) c s (by omega)]
  have h2 : c.rc - (c.rc - 1) = 1 := by omega
  rw [h2]
  rfl

/-- C1: across the whole lifetime of any population of handles of either
variant — an arbitrary sequence of wrap/dup_wrap/dup/clone/clone_from/drop
operations from a fresh system, under any OS failure oracle — the OS close
primitive releases each underlying open descriptor instance at most once
(the released open-ids in the trace are pairwise distinct); and after the
auto-closing handle runs its teardown its stored value is the negative
sentinel `-1`, so a second teardown is a no-op. -/
theorem spec_C1_exactly_once_close :
    (∀ (oracle : List Bool) (cmds : List Cmd),
        (closedIds (World.run cmds (World.init oracle)).sys.trace).Nodup)
    ∧ (∀ (h : AutoClosingFD) (s : Sys), 0 ≤ h.fd →
        (AutoClosingFD.drop h s).1.fd = -1)
    ∧ (∀ (h : AutoClosingFD) (s : Sys),
        AutoClosingFD.drop (AutoClosingFD.drop h s).1 (AutoClosingFD.drop h s).2
          = AutoClosingFD.drop h s) := by
  refine ⟨?_, ?_, ?_⟩
  · intro oracle cmds
    exact (sysInv_run cmds _ (sysInv_init oracle)).clNodup
  · intro h s hge
    unfold AutoClosingFD.drop
    rw [if_pos hge]
  · intro h s
    by_cases hge : 0 ≤ h.fd
    · have h1 : AutoClosingFD.drop h s = (⟨-1⟩, s.closeFd h.fd) := by
        unfold AutoClosingFD.drop
        rw [if_pos hge]
      rw [h1]
      unfold AutoClosingFD.drop
      rw [if_neg (show ¬ (0 : Int) ≤ (AutoClosingFD.mk (-1)).fd by decide)]
    · have h1 : AutoClosingFD.drop h s = (h, s) := by
        unfold AutoClosingFD.drop
        rw [if_neg hge]
      rw [h1]
      unfold AutoClosingFD.drop
      rw [if_neg hge]

/-- Witness for C1 at a concrete run (open a file, wrap it, duplicate and
clone it, drop everything) and a concrete teardown. -/
theorem spec_C1_exactly_once_close_witness :
    (closedIds (World.run
        [Cmd.openF, Cmd.wrapD 1, Cmd.dupD 0, Cmd.cloneD 0,
         Cmd.dropD 1, Cmd.dropD 0]
        (World.init [])).sys.trace).Nodup
    ∧ (AutoClosingFD.drop ⟨3⟩ ⟨[(3, 0)], 1, 0, [], []⟩).1.fd = -1 :=
  ⟨spec_C1_exactly_once_close.1 []
      [Cmd.openF, Cmd.wrapD 1, Cmd.dupD 0, Cmd.cloneD 0,
       Cmd.dropD 1, Cmd.dropD 0],
   spec_C1_exactly_once_close.2.1 ⟨3⟩ ⟨[(3, 0)], 1, 0, [], []⟩ (by decide)⟩

/-- C4: for a `SharedFD` cell with `rc` live instances, `dup` never fails and
yields an instance with the same raw descriptor; dropping any `k < rc`
instances leaves the OS untouched (the descriptor stays open, no close is
invoked); dropping the last instance invokes the close primitive exactly
once, closing the descriptor. -/
theorem spec_C4_shared_refcount (c : SharedFD) (s : Sys) (k : Nat)
    (hk : k < c.rc) (hfd : 0 ≤ c.payload.fd)
    (hopen : (lookupFd s.table c.payload.fd).isSome = true) :
    SharedFD.dup c s = (Except.ok { c with rc := c.rc + 1 }, s)
    ∧ SharedFD.as_raw_fd { c with rc := c.rc + 1 } = SharedFD.as_raw_fd c
    ∧ (dropN k (c, s)).2 = s
    ∧ (∃ oid, lookupFd s.table c.payload.fd = some oid
        ∧ (dropN c.rc (c, s)).2.trace
            = s.trace ++ [Ev.closedO c.payload.fd oid]
        ∧ lookupFd (dropN c.rc (c, s)).2.table c.payload.fd = none) := by
  refine ⟨rfl, rfl, ?_, ?_⟩
  · rw [dropN_stay k c s hk]
  · obtain ⟨oid, hoid⟩ := Option.isSome_iff_exists.mp hopen
    have hdrop : AutoClosingFD.drop c.payload s
        = (⟨-1⟩, s.closeFd c.payload.fd) := by
      unfold AutoClosingFD.drop
      rw [if_pos hfd]
    have hclose : s.closeFd c.payload.fd
        = { s with table := eraseFd s.table c.payload.fd,
                   trace := s.trace ++ [Ev.closedO c.payload.fd oid] } := by
      unfold Sys.closeFd
      rw [hoid]
    refine ⟨oid, hoid, ?_, ?_⟩
    · rw [dropN_last c s (by omega)]
      rw [hdrop, hclose]
    · rw [dropN_last c s (by omega)]
      rw [hdrop, hclose]
      exact lookupFd_eraseFd_self s.table c.payload.fd

/-- Witness for C4: a cell with two live instances over open descriptor 5;
one drop leaves the system untouched, the second closes 5 exactly once. -/
theorem spec_C4_shared_refcount_witness :
    SharedFD.dup ⟨2, ⟨5⟩⟩ ⟨[(5, 0)], 1, 0, [], []⟩
        = (Except.ok ⟨3, ⟨5⟩⟩, ⟨[(5, 0)], 1, 0, [], []⟩)
    ∧ SharedFD.as_raw_fd ⟨3, ⟨5⟩⟩ = SharedFD.as_raw_fd ⟨2, ⟨5⟩⟩
    ∧ (dropN 1 (⟨2, ⟨5⟩⟩, ⟨[(5, 0)], 1, 0, [], []⟩)).2
        = ⟨[(5, 0)], 1, 0, [], []⟩
    ∧ (∃ oid, lookupFd [(5, 0)] 5 = some oid
        ∧ (dropN 2 (⟨2, ⟨5⟩⟩, ⟨[(5, 0)], 1, 0, [], []⟩)).2.trace
            = [] ++ [Ev.closedO 5 oid]
        ∧ lookupFd (dropN 2 (⟨2, ⟨5⟩⟩, ⟨[(5, 0)], 1, 0, [], []⟩)).2.table 5
            = none) :=
  spec_C4_shared_refcount ⟨2, ⟨5⟩⟩ ⟨[(5, 0)], 1, 0, [], []⟩ 1 (by decide)
    (by decide) (by decide)

/-! Inversion facts about the modelled `dup` primitive. -/

theorem dup_neg_one_iff (s : Sys) (fd : Int) :
    (s.dup fd).1 = -1
      ↔ (lookupFd s.table fd = none ∨ s.failDup.headD false = true) := by
  unfold Sys.dup
  cases hl : lookupFd s.table fd with
  | none => simp
  | some oid =>
      by_cases ho : s.failDup.headD false = true
      · rw [if_pos ho]
        apply iff_of_true rfl
        exact Or.inr ho
      · rw [if_neg ho]
        apply iff_of_false
        · intro hc
          have hc2 : s.freshFd = -1 := hc
          have hn := freshFd_nonneg s
          omega
        · rintro (hx | hx)
          · exact Option.noConfusion hx
          · exact ho hx

theorem dup_success (s : Sys) (fd : Int) (hc : ¬ (s.dup fd).1 = -1) :
    ∃ oid, lookupFd s.table fd = some oid
      ∧ (s.dup fd).1 = s.freshFd
      ∧ (s.dup fd).2 = { s with table := (s.freshFd, s.nextId) :: s.table,
                                nextId := s.nextId + 1,
                                failDup := s.failDup.tail,
                                trace := s.trace
                                  ++ [Ev.dupEv fd s.freshFd] } := by
  unfold Sys.dup at hc ⊢
  cases hl : lookupFd s.table fd with
  | none =>
      rw [hl] at hc
      exact absurd rfl hc
  | some oid =>
      rw [hl] at hc
      by_cases ho : s.failDup.headD false = true
      · rw [if_pos ho] at hc
        exact absurd rfl hc
      · rw [if_neg ho] at hc ⊢
        exact ⟨oid, rfl, rfl, rfl⟩

theorem dup_fail_errno (s : Sys) (fd : Int) (h : (s.dup fd).1 = -1) :
    (s.dup fd).2.errno = EBADF ∨ (s.dup fd).2.errno = EMFILE := by
  unfold Sys.dup at h ⊢
  cases hl : lookupFd s.table fd with
  | none => exact Or.inl rfl
  | some oid =>
      rw [hl] at h
      by_cases ho : s.failDup.headD false = true
      · rw [if_pos ho]
        exact Or.inr rfl
      · rw [if_neg ho] at h
        have hc2 : s.freshFd = -1 := h
        have hn := freshFd_nonneg s
        omega

theorem dup_fail_table (s : Sys) (fd : Int) (h : (s.dup fd).1 = -1) :
    (s.dup fd).2.table = s.table := by
  unfold Sys.dup at h ⊢
  cases hl : lookupFd s.table fd with
  | none => rfl
  | some oid =>
      rw [hl] at h
      by_cases ho : s.failDup.headD false = true
      · rw [if_pos ho]
      · rw [if_neg ho] at h
        have hc2 : s.freshFd = -1 := h
        have hn := freshFd_nonneg s
        omega

theorem dup_lookup_preserved (s : Sys) (fd : Int) :
    lookupFd (s.dup fd).2.table fd = lookupFd s.table fd := by
  by_cases hc : (s.dup fd).1 = -1
  · rw [dup_fail_table s fd hc]
  · obtain ⟨oid, hl, _, h2⟩ := dup_success s fd hc
    rw [h2]
    have hne := lookupFd_freshFd_ne hl
    show lookupFd ((s.freshFd, s.nextId) :: s.table) fd = lookupFd s.table fd
    simp only [lookupFd, if_neg hne]

theorem countCloses_append (t1 t2 : List Ev) (fd : Int) :
    countCloses (t1 ++ t2) fd = countCloses t1 fd + countCloses t2 fd := by
  unfold countCloses
  rw [List.filter_append, List.length_append]

@[simp] theorem countCloses_dupEv (fd a b : Int) :
    countCloses [Ev.dupEv a b] fd = 0 := rfl

@[simp] theorem countCloses_dup2Ev (fd a b c : Int) :
    countCloses [Ev.dup2Ev a b c] fd = 0 := rfl

theorem dup_countCloses (s : Sys) (fd fd' : Int) :
    countCloses (s.dup fd).2.trace fd' = countCloses s.trace fd' := by
  unfold Sys.dup
  cases hl : lookupFd s.table fd with
  | none => simp [countCloses_append]
  | some oid =>
      by_cases ho : s.failDup.headD false = true
      · rw [if_pos ho]
        simp [countCloses_append]
      · rw [if_neg ho]
        simp [countCloses_append]

theorem dup_wrap_error_inv (raw : Int) (s : Sys) (e : Int) (s' : Sys)
    (h : AutoClosingFD.dup_wrap raw s = (Except.error e, s')) :
    (s.dup raw).1 = -1 ∧ e = (s.dup raw).2.errno ∧ s' = (s.dup raw).2 := by
  unfold AutoClosingFD.dup_wrap at h
  by_cases hc : (s.dup raw).1 = -1
  · rw [if_pos hc, Prod.mk.injEq] at h
    obtain ⟨h1, h2⟩ := h
    injection h1 with h1
    exact ⟨hc, h1.symm, h2.symm⟩
  · rw [if_neg hc, Prod.mk.injEq] at h
    exact absurd h.1 (fun hx => Except.noConfusion hx)

theorem ac_dup_wrap_error_iff (raw : Int) (s : Sys) :
    (∃ e, (AutoClosingFD.dup_wrap raw s).1 = Except.error e)
      ↔ (s.dup raw).1 = -1 := by
  unfold AutoClosingFD.dup_wrap
  by_cases hc : (s.dup raw).1 = -1
  · rw [if_pos hc]
    exact iff_of_true ⟨(s.dup raw).2.errno, rfl⟩ hc
  · rw [if_neg hc]
    apply iff_of_false
    · rintro ⟨e, he⟩
      exact Except.noConfusion he
    · exact hc

theorem d_dup_wrap_fst (raw : Int) (s : Sys) :
    (∃ e, (DuplicatingFD.dup_wrap raw s).1 = Except.error e)
      ↔ (∃ e, (AutoClosingFD.dup_wrap raw s).1 = Except.error e) := by
  unfold DuplicatingFD.dup_wrap
  rcases hr : AutoClosingFD.dup_wrap raw s with ⟨e, s'⟩
  cases e with
  | ok a =>
      apply iff_of_false
      · rintro ⟨e, he⟩
        exact Except.noConfusion he
      · rintro ⟨e, he⟩
        exact Except.noConfusion he
  | error e0 =>
      exact iff_of_true ⟨e0, rfl⟩ ⟨e0, rfl⟩

theorem s_dup_wrap_fst (raw : Int) (s : Sys) :
    (∃ e, (SharedFD.dup_wrap raw s).1 = Except.error e)
      ↔ (∃ e, (AutoClosingFD.dup_wrap raw s).1 = Except.error e) := by
  unfold SharedFD.dup_wrap
  rcases hr : AutoClosingFD.dup_wrap raw s with ⟨e, s'⟩
  cases e with
  | ok a =>
      apply iff_of_false
      · rintro ⟨e, he⟩
        exact Except.noConfusion he
      · rintro ⟨e, he⟩
        exact Except.noConfusion he
  | error e0 =>
      exact iff_of_true ⟨e0, rfl⟩ ⟨e0, rfl⟩

/-- C2: for either variant, `dup_wrap(raw)` fails exactly when the OS
duplicate primitive fails (returns `-1`) — in the model, when `raw` is not an
open descriptor or the OS refuses a new one; on failure it returns an
`OsError` carrying the last OS error code (non-zero); and in both the success
and the failure case `raw` itself is neither closed nor modified, remaining
owned by the caller. -/
theorem spec_C2_dup_wrap_failure (raw : Int) (s : Sys) :
    ((∃ e, (AutoClosingFD.dup_wrap raw s).1 = Except.error e)
        ↔ (s.dup raw).1 = -1)
    ∧ ((s.dup raw).1 = -1
        ↔ (lookupFd s.table raw = none ∨ s.failDup.headD false = true))
    ∧ (∀ e s', AutoClosingFD.dup_wrap raw s = (Except.error e, s')
        → e = s'.errno ∧ e ≠ 0)
    ∧ lookupFd (AutoClosingFD.dup_wrap raw s).2.table raw
        = lookupFd s.table raw
    ∧ countCloses (AutoClosingFD.dup_wrap raw s).2.trace raw
        = countCloses s.trace raw
    ∧ (DuplicatingFD.dup_wrap raw s).2 = (AutoClosingFD.dup_wrap raw s).2
    ∧ (SharedFD.dup_wrap raw s).2 = (AutoClosingFD.dup_wrap raw s).2
    ∧ ((∃ e, (DuplicatingFD.dup_wrap raw s).1 = Except.error e)
        ↔ (s.dup raw).1 = -1)
    ∧ ((∃ e, (SharedFD.dup_wrap raw s).1 = Except.error e)
        ↔ (s.dup raw).1 = -1) := by
  refine ⟨ac_dup_wrap_error_iff raw s, dup_neg_one_iff s raw, ?_, ?_, ?_, ?_,
    ?_, ?_, ?_⟩
  · intro e s' h
    obtain ⟨hf, he, hs⟩ := dup_wrap_error_inv raw s e s' h
    subst hs
    refine ⟨he, ?_⟩
    rw [he]
    rcases dup_fail_errno s raw hf with hx | hx <;> rw [hx] <;> decide
  · rw [ac_dup_wrap_snd]
    exact dup_lookup_preserved s raw
  · rw [ac_dup_wrap_snd]
    exact dup_countCloses s raw raw
  · rw [d_dup_wrap_snd, ac_dup_wrap_snd]
  · rw [s_dup_wrap_snd, ac_dup_wrap_snd]
  · exact (d_dup_wrap_fst raw s).trans (ac_dup_wrap_error_iff raw s)
  · exact (s_dup_wrap_fst raw s).trans (ac_dup_wrap_error_iff raw s)

/-- Witness for C2: `dup_wrap(5)` against an empty descriptor table fails
with the last OS error code EBADF = 9 ≠ 0. -/
theorem spec_C2_dup_wrap_failure_witness :
    (9 : Int) = (Sys.mk [] 0 9 [] [Ev.dupEv 5 (-1)]).errno ∧ (9 : Int) ≠ 0 :=
  (spec_C2_dup_wrap_failure 5 ⟨[], 0, 0, [], []⟩).2.2.1 9
    ⟨[], 0, 9, [], [Ev.dupEv 5 (-1)]⟩ rfl

theorem d_dup_error_inv (h : DuplicatingFD) (s : Sys) (e : Int) (s' : Sys)
    (hd : DuplicatingFD.dup h s = (Except.error e, s')) :
    (s.dup h.as_raw_fd).1 = -1 ∧ e = (s.dup h.as_raw_fd).2.errno
      ∧ s' = (s.dup h.as_raw_fd).2 := by
  unfold DuplicatingFD.dup at hd
  by_cases hc : (s.dup h.as_raw_fd).1 = -1
  · rw [if_pos hc, Prod.mk.injEq] at hd
    obtain ⟨h1, h2⟩ := hd
    injection h1 with h1
    exact ⟨hc, h1.symm, h2.symm⟩
  · rw [if_neg hc, Prod.mk.injEq] at hd
    exact absurd hd.1 (fun hx => Except.noConfusion hx)

/-- C9: whenever the OS duplicate primitive fails inside `dup_wrap` or `dup`,
the caller receives an `OsError` with a non-zero code, and no descriptor is
closed, created or changed by the failed call (the whole descriptor table is
untouched and no close is invoked); `SharedFD::dup` cannot fail at all. -/
theorem spec_C9_dup_failure_effects (raw : Int) (h : DuplicatingFD)
    (c : SharedFD) (s : Sys) :
    (∀ e s', AutoClosingFD.dup_wrap raw s = (Except.error e, s')
        → e ≠ 0 ∧ s'.table = s.table
          ∧ countCloses s'.trace raw = countCloses s.trace raw)
    ∧ (∀ e s', DuplicatingFD.dup h s = (Except.error e, s')
        → e ≠ 0 ∧ s'.table = s.table
          ∧ countCloses s'.trace (DuplicatingFD.as_raw_fd h)
              = countCloses s.trace (DuplicatingFD.as_raw_fd h))
    ∧ (∀ e s', SharedFD.dup c s = (Except.error e, s') → False) := by
  refine ⟨?_, ?_, ?_⟩
  · intro e s' hw
    obtain ⟨hf, he, hs⟩ := dup_wrap_error_inv raw s e s' hw
    subst hs
    refine ⟨?_, dup_fail_table s raw hf, dup_countCloses s raw raw⟩
    rw [he]
    rcases dup_fail_errno s raw hf with hx | hx <;> rw [hx] <;> decide
  · intro e s' hd
    obtain ⟨hf, he, hs⟩ := d_dup_error_inv h s e s' hd
    subst hs
    refine ⟨?_, dup_fail_table s _ hf, dup_countCloses s _ _⟩
    rw [he]
    rcases dup_fail_errno s _ hf with hx | hx <;> rw [hx] <;> decide
  · intro e s' hd
    unfold SharedFD.dup at hd
    rw [Prod.mk.injEq] at hd
    exact Except.noConfusion hd.1

/-- Witness for C9: a failing `dup_wrap` against the empty table leaves the
table untouched and closes nothing; code 9 is non-zero. -/
theorem spec_C9_dup_failure_effects_witness :
    (9 : Int) ≠ 0
    ∧ (Sys.mk [] 0 9 [] [Ev.dupEv 5 (-1)]).table = (Sys.mk [] 0 0 [] []).table
    ∧ countCloses (Sys.mk [] 0 9 [] [Ev.dupEv 5 (-1)]).trace 5
        = countCloses (Sys.mk [] 0 0 [] []).trace 5 :=
  (spec_C9_dup_failure_effects 5 (DuplicatingFD.wrap 5) ⟨1, ⟨5⟩⟩
      ⟨[], 0, 0, [], []⟩).1 9 ⟨[], 0, 9, [], [Ev.dupEv 5 (-1)]⟩ rfl

/-- C3: `wrap(raw)` on every variant always succeeds (it is a total function
with no error channel) and the resulting handle's raw accessor returns
exactly `raw`; the only operation that rebinds an existing handle in place,
`clone_from`, also leaves the handle's own descriptor number unchanged, so
the accessor keeps returning `raw` until teardown. -/
theorem spec_C3_wrap_identity (raw : Int) (s : Sys) :
    AutoClosingFD.as_raw_fd (AutoClosingFD.wrap raw) = raw
    ∧ DuplicatingFD.as_raw_fd (DuplicatingFD.wrap raw) = raw
    ∧ SharedFD.as_raw_fd (SharedFD.wrap raw) = raw
    ∧ (∀ (self source h2 : DuplicatingFD) (s2 : Sys),
        DuplicatingFD.clone_from self source s = (some h2, s2)
        → DuplicatingFD.as_raw_fd h2 = DuplicatingFD.as_raw_fd self) := by
  refine ⟨rfl, rfl, rfl, ?_⟩
  intro self source h2 s2 hcf
  unfold DuplicatingFD.clone_from at hcf
  by_cases h1 : source.as_raw_fd < 0
  · rw [if_pos h1, Prod.mk.injEq] at hcf
    exact absurd hcf.1 (fun hx => Option.noConfusion hx)
  · rw [if_neg h1] at hcf
    by_cases h2' : self.as_raw_fd < 0
    · rw [if_pos h2', Prod.mk.injEq] at hcf
      exact absurd hcf.1 (fun hx => Option.noConfusion hx)
    · rw [if_neg h2'] at hcf
      by_cases h3 : source.as_raw_fd ≠ self.as_raw_fd
      · rw [if_pos h3] at hcf
        by_cases h4 : ((s.closeFd self.as_raw_fd).dup2 source.as_raw_fd
            self.as_raw_fd).1 = -1
        · rw [if_pos h4, Prod.mk.injEq] at hcf
          exact absurd hcf.1 (fun hx => Option.noConfusion hx)
        · rw [if_neg h4, Prod.mk.injEq] at hcf
          injection hcf.1 with hx
          rw [← hx]
      · rw [if_neg h3, Prod.mk.injEq] at hcf
        injection hcf.1 with hx
        rw [← hx]

/-- Witness for C3 at `raw = 3` with `clone_from` in its self-assignment
case. -/
theorem spec_C3_wrap_identity_witness :
    DuplicatingFD.as_raw_fd (DuplicatingFD.wrap 3)
      = DuplicatingFD.as_raw_fd (DuplicatingFD.wrap 3) :=
  (spec_C3_wrap_identity 3 ⟨[], 0, 0, [], []⟩).2.2.2 (DuplicatingFD.wrap 3)
    (DuplicatingFD.wrap 3) (DuplicatingFD.wrap 3) ⟨[], 0, 0, [], []⟩ rfl

theorem d_dup_ok_inv (h h2 : DuplicatingFD) (s s' : Sys)
    (hd : DuplicatingFD.dup h s = (Except.ok h2, s')) :
    ¬ (s.dup h.as_raw_fd).1 = -1
      ∧ h2 = DuplicatingFD.wrap (s.dup h.as_raw_fd).1
      ∧ s' = (s.dup h.as_raw_fd).2 := by
  unfold DuplicatingFD.dup at hd
  by_cases hc : (s.dup h.as_raw_fd).1 = -1
  · rw [if_pos hc, Prod.mk.injEq] at hd
    exact absurd hd.1 (fun hx => Except.noConfusion hx)
  · rw [if_neg hc, Prod.mk.injEq] at hd
    obtain ⟨h1, h2'⟩ := hd
    injection h1 with h1
    exact ⟨hc, h1.symm, h2'.symm⟩

/-- C5: when `DuplicatingFD::dup` succeeds, the two handles hold distinct
descriptor numbers, and destroying either handle leaves the other's
descriptor open in the table — fully independent lifetimes. -/
theorem spec_C5_dup_independent (h h2 : DuplicatingFD) (s s' : Sys)
    (hd : DuplicatingFD.dup h s = (Except.ok h2, s')) :
    DuplicatingFD.as_raw_fd h2 ≠ DuplicatingFD.as_raw_fd h
    ∧ (lookupFd (DuplicatingFD.drop h s').2.table
        (DuplicatingFD.as_raw_fd h2)).isSome = true
    ∧ (lookupFd (DuplicatingFD.drop h2 s').2.table
        (DuplicatingFD.as_raw_fd h)).isSome = true := by
  obtain ⟨hc, hh2, hs'⟩ := d_dup_ok_inv h h2 s s' hd
  obtain ⟨oid, hl, hfst, hsnd⟩ := dup_success s h.as_raw_fd hc
  have hne : s.freshFd ≠ h.as_raw_fd := lookupFd_freshFd_ne hl
  have hraw2 : DuplicatingFD.as_raw_fd h2 = s.freshFd := by
    rw [hh2, hfst]
    rfl
  have htab : s'.table = (s.freshFd, s.nextId) :: s.table := by
    rw [hs', hsnd]
  have hlook2 : lookupFd s'.table s.freshFd = some s.nextId := by
    rw [htab]
    simp [lookupFd]
  have hlook1 : lookupFd s'.table h.as_raw_fd = some oid := by
    rw [htab]
    simp only [lookupFd, if_neg hne]
    exact hl
  refine ⟨by rw [hraw2]; exact hne, ?_, ?_⟩
  · rw [hraw2]
    unfold DuplicatingFD.drop AutoClosingFD.drop
    by_cases hge : 0 ≤ h.inner.fd
    · rw [if_pos hge]
      show (lookupFd ((s'.closeFd h.inner.fd)).table s.freshFd).isSome = true
      unfold Sys.closeFd
      cases hlk : lookupFd s'.table h.inner.fd with
      | none =>
          show (lookupFd s'.table s.freshFd).isSome = true
          rw [hlook2]
          rfl
      | some o2 =>
          show (lookupFd (eraseFd s'.table h.inner.fd) s.freshFd).isSome = true
          have hne' : s.freshFd ≠ h.inner.fd := hne
          rw [lookupFd_eraseFd_ne s'.table hne', hlook2]
          rfl
    · rw [if_neg hge]
      show (lookupFd s'.table s.freshFd).isSome = true
      rw [hlook2]
      rfl
  · have hraw2' : h2.inner.fd = s.freshFd := hraw2
    unfold DuplicatingFD.drop AutoClosingFD.drop
    rw [if_pos (show 0 ≤ h2.inner.fd by
      rw [hraw2']
      exact freshFd_nonneg s)]
    show (lookupFd ((s'.closeFd h2.inner.fd)).table
      (DuplicatingFD.as_raw_fd h)).isSome = true
    unfold Sys.closeFd
    cases hlk : lookupFd s'.table h2.inner.fd with
    | none =>
        show (lookupFd s'.table (DuplicatingFD.as_raw_fd h)).isSome = true
        rw [hlook1]
        rfl
    | some o2 =>
        show (lookupFd (eraseFd s'.table h2.inner.fd)
          (DuplicatingFD.as_raw_fd h)).isSome = true
        rw [hraw2', lookupFd_eraseFd_ne s'.table (fun hx => hne hx.symm),
          hlook1]
        rfl

/-- Witness for C5: duplicating descriptor 5 yields descriptor 6; dropping
either leaves the other open. -/
theorem spec_C5_dup_independent_witness :
    DuplicatingFD.as_raw_fd (DuplicatingFD.wrap 6)
        ≠ DuplicatingFD.as_raw_fd (DuplicatingFD.wrap 5)
    ∧ (lookupFd (DuplicatingFD.drop (DuplicatingFD.wrap 5)
          ⟨[(6, 1), (5, 0)], 2, 0, [], [Ev.dupEv 5 6]⟩).2.table
        (DuplicatingFD.as_raw_fd (DuplicatingFD.wrap 6))).isSome = true
    ∧ (lookupFd (DuplicatingFD.drop (DuplicatingFD.wrap 6)
          ⟨[(6, 1), (5, 0)], 2, 0, [], [Ev.dupEv 5 6]⟩).2.table
        (DuplicatingFD.as_raw_fd (DuplicatingFD.wrap 5))).isSome = true :=
  spec_C5_dup_independent (DuplicatingFD.wrap 5) (DuplicatingFD.wrap 6)
    ⟨[(5, 0)], 1, 0, [], []⟩ ⟨[(6, 1), (5, 0)], 2, 0, [], [Ev.dupEv 5 6]⟩ rfl

/-- C6: copy-construction is exactly `dup().unwrap()` on both variants: when
`dup` succeeds, `clone` returns that very handle; when `dup` fails, `clone`
panics (no handle is returned) instead of yielding a corrupt one — any handle
`clone` does return has a non-negative, open descriptor.  For `SharedFD` the
underlying `dup` cannot fail, so the copy is unconditionally successful. -/
theorem spec_C6_clone_is_dup_unwrap (h : DuplicatingFD) (c : SharedFD)
    (s : Sys) :
    (∀ h2 s2, DuplicatingFD.dup h s = (Except.ok h2, s2)
        → DuplicatingFD.clone h s = (some h2, s2))
    ∧ (∀ e s2, DuplicatingFD.dup h s = (Except.error e, s2)
        → DuplicatingFD.clone h s = (none, s2))
    ∧ (∀ h2, (DuplicatingFD.clone h s).1 = some h2
        → 0 ≤ DuplicatingFD.as_raw_fd h2
          ∧ (lookupFd (DuplicatingFD.clone h s).2.table
              (DuplicatingFD.as_raw_fd h2)).isSome = true)
    ∧ SharedFD.clone c s = (some { c with rc := c.rc + 1 }, s) := by
  refine ⟨?_, ?_, ?_, rfl⟩
  · intro h2 s2 hd
    unfold DuplicatingFD.clone
    rw [hd]
  · intro e s2 hd
    unfold DuplicatingFD.clone
    rw [hd]
  · intro h2 hcl
    unfold DuplicatingFD.clone at hcl ⊢
    rcases hr : DuplicatingFD.dup h s with ⟨e, s2⟩
    rw [hr] at hcl
    cases e with
    | error e0 =>
        have hcl' : (none : Option DuplicatingFD) = some h2 := hcl
        exact absurd hcl' (fun hx => Option.noConfusion hx)
    | ok a =>
        have hcl' : some a = some h2 := hcl
        injection hcl' with hcl'
        have hca : h2 = a := hcl'.symm
        subst hca
        obtain ⟨hc, hh2, hs2⟩ := d_dup_ok_inv h h2 s s2 hr
        obtain ⟨oid, hl, hfst, hsnd⟩ := dup_success s h.as_raw_fd hc
        have hraw2 : DuplicatingFD.as_raw_fd h2 = s.freshFd := by
          rw [hh2, hfst]
          rfl
        constructor
        · rw [hraw2]
          exact freshFd_nonneg s
        · show (lookupFd s2.table (DuplicatingFD.as_raw_fd h2)).isSome = true
          rw [hraw2, hs2, hsnd]
          simp [lookupFd]

/-- Witness for C6: cloning descriptor 5 returns the `dup`-created
descriptor 6, non-negative and open. -/
theorem spec_C6_clone_is_dup_unwrap_witness :
    DuplicatingFD.clone (DuplicatingFD.wrap 5) ⟨[(5, 0)], 1, 0, [], []⟩
        = (some (DuplicatingFD.wrap 6),
            ⟨[(6, 1), (5, 0)], 2, 0, [], [Ev.dupEv 5 6]⟩)
    ∧ (0 ≤ DuplicatingFD.as_raw_fd (DuplicatingFD.wrap 6)
        ∧ (lookupFd (DuplicatingFD.clone (DuplicatingFD.wrap 5)
              ⟨[(5, 0)], 1, 0, [], []⟩).2.table
            (DuplicatingFD.as_raw_fd (DuplicatingFD.wrap 6))).isSome = true) :=
  ⟨(spec_C6_clone_is_dup_unwrap (DuplicatingFD.wrap 5) ⟨1, ⟨5⟩⟩
      ⟨[(5, 0)], 1, 0, [], []⟩).1 (DuplicatingFD.wrap 6)
      ⟨[(6, 1), (5, 0)], 2, 0, [], [Ev.dupEv 5 6]⟩ rfl,
   (spec_C6_clone_is_dup_unwrap (DuplicatingFD.wrap 5) ⟨1, ⟨5⟩⟩
      ⟨[(5, 0)], 1, 0, [], []⟩).2.2.1 (DuplicatingFD.wrap 6) rfl⟩

/-- C7: `clone_from` requires both descriptors non-negative and aborts
(assertion failure) otherwise — leaving the OS untouched, since the asserts
run before any OS call; when source and target already hold the same
descriptor number it performs no OS call at all and returns the target
unchanged. -/
theorem spec_C7_clone_from_preconditions (self source : DuplicatingFD)
    (s : Sys) :
    (DuplicatingFD.as_raw_fd source < 0
        → DuplicatingFD.clone_from self source s = (none, s))
    ∧ (DuplicatingFD.as_raw_fd self < 0
        → DuplicatingFD.clone_from self source s = (none, s))
    ∧ (0 ≤ DuplicatingFD.as_raw_fd source
        → 0 ≤ DuplicatingFD.as_raw_fd self
        → DuplicatingFD.as_raw_fd source = DuplicatingFD.as_raw_fd self
        → DuplicatingFD.clone_from self source s = (some self, s)) := by
  refine ⟨?_, ?_, ?_⟩
  · intro h1
    unfold DuplicatingFD.clone_from
    rw [if_pos h1]
  · intro h2
    unfold DuplicatingFD.clone_from
    by_cases h1 : source.as_raw_fd < 0
    · rw [if_pos h1]
    · rw [if_neg h1, if_pos h2]
  · intro h1 h2 heq
    unfold DuplicatingFD.clone_from
    rw [if_neg (not_lt.mpr h1), if_neg (not_lt.mpr h2),
      if_neg (not_not_intro heq)]

/-- Witness for C7: a negative source aborts without OS effects; equal
descriptors are a complete no-op. -/
theorem spec_C7_clone_from_preconditions_witness :
    DuplicatingFD.clone_from (DuplicatingFD.wrap 3) (DuplicatingFD.wrap (-1))
        ⟨[], 0, 0, [], []⟩ = (none, ⟨[], 0, 0, [], []⟩)
    ∧ DuplicatingFD.clone_from (DuplicatingFD.wrap 4) (DuplicatingFD.wrap 4)
        ⟨[], 0, 0, [], []⟩
        = (some (DuplicatingFD.wrap 4), ⟨[], 0, 0, [], []⟩) :=
  ⟨(spec_C7_clone_from_preconditions (DuplicatingFD.wrap 3)
      (DuplicatingFD.wrap (-1)) ⟨[], 0, 0, [], []⟩).1 (by decide),
   (spec_C7_clone_from_preconditions (DuplicatingFD.wrap 4)
      (DuplicatingFD.wrap 4) ⟨[], 0, 0, [], []⟩).2.2 (by decide) (by decide)
      rfl⟩

theorem closeFd_of_lookup {s : Sys} {fd : Int} {o : Nat}
    (h : lookupFd s.table fd = some o) :
    s.closeFd fd = { s with table := eraseFd s.table fd,
                            trace := s.trace ++ [Ev.closedO fd o] } := by
  unfold Sys.closeFd
  rw [h]

/-- C8: `clone_from` on valid, distinct descriptors first closes the
target's current descriptor and then rebinds the target's own number to the
source's resource via `dup2`, in that order in the trace; the target handle
keeps its descriptor number (the returned handle is `self` itself), the
source's table entry is untouched, and the target's number is open again
afterwards. -/
theorem spec_C8_clone_from_rebinds (self source : DuplicatingFD) (s : Sys)
    (h1 : 0 ≤ DuplicatingFD.as_raw_fd source)
    (h2 : 0 ≤ DuplicatingFD.as_raw_fd self)
    (hne : DuplicatingFD.as_raw_fd source ≠ DuplicatingFD.as_raw_fd self)
    (hsrc : (lookupFd s.table (DuplicatingFD.as_raw_fd source)).isSome = true)
    (htgt : (lookupFd s.table (DuplicatingFD.as_raw_fd self)).isSome = true)
    (hok : s.failDup.headD false = false) :
    (DuplicatingFD.clone_from self source s).1 = some self
    ∧ (∃ o2, lookupFd s.table (DuplicatingFD.as_raw_fd self) = some o2
        ∧ (DuplicatingFD.clone_from self source s).2.trace
            = s.trace ++ [Ev.closedO (DuplicatingFD.as_raw_fd self) o2,
                Ev.dup2Ev (DuplicatingFD.as_raw_fd source)
                  (DuplicatingFD.as_raw_fd self)
                  (DuplicatingFD.as_raw_fd self)])
    ∧ lookupFd (DuplicatingFD.clone_from self source s).2.table
        (DuplicatingFD.as_raw_fd source)
        = lookupFd s.table (DuplicatingFD.as_raw_fd source)
    ∧ (lookupFd (DuplicatingFD.clone_from self source s).2.table
        (DuplicatingFD.as_raw_fd self)).isSome = true := by
  obtain ⟨o1, ho1⟩ := Option.isSome_iff_exists.mp hsrc
  obtain ⟨o2, ho2⟩ := Option.isSome_iff_exists.mp htgt
  have hlk1 : lookupFd (eraseFd s.table (DuplicatingFD.as_raw_fd self))
      (DuplicatingFD.as_raw_fd source) = some o1 := by
    rw [lookupFd_eraseFd_ne s.table hne]
    exact ho1
  have hok2 : ¬ s.failDup.headD false = true := by
    rw [hok]
    exact Bool.false_ne_true
  have hcf : DuplicatingFD.clone_from self source s
      = (some self,
          { s with
              table := (DuplicatingFD.as_raw_fd self, s.nextId)
                :: eraseFd (eraseFd s.table (DuplicatingFD.as_raw_fd self))
                     (DuplicatingFD.as_raw_fd self),
              nextId := s.nextId + 1,
              failDup := s.failDup.tail,
              trace := (s.trace
                  ++ [Ev.closedO (DuplicatingFD.as_raw_fd self) o2])
                ++ [Ev.dup2Ev (DuplicatingFD.as_raw_fd source)
                      (DuplicatingFD.as_raw_fd self)
                      (DuplicatingFD.as_raw_fd self)] }) := by
    unfold DuplicatingFD.clone_from
    rw [if_neg (not_lt.mpr h1), if_neg (not_lt.mpr h2), if_pos hne,
      closeFd_of_lookup ho2]
    unfold Sys.dup2
    dsimp only
    rw [if_neg (not_lt.mpr h2), hlk1]
    dsimp only
    rw [if_neg hne, if_neg hok2]
    dsimp only
    rw [if_neg (show ¬ DuplicatingFD.as_raw_fd self = -1 by omega)]
  rw [hcf]
  refine ⟨rfl, ⟨o2, ho2, ?_⟩, ?_, ?_⟩
  · dsimp only
    rw [List.append_assoc]
    rfl
  · dsimp only
    show lookupFd ((DuplicatingFD.as_raw_fd self, s.nextId)
        :: eraseFd (eraseFd s.table (DuplicatingFD.as_raw_fd self))
             (DuplicatingFD.as_raw_fd self))
        (DuplicatingFD.as_raw_fd source) = _
    simp only [lookupFd]
    rw [if_neg (Ne.symm hne), lookupFd_eraseFd_ne _ hne,
      lookupFd_eraseFd_ne _ hne]
  · dsimp only
    show (lookupFd ((DuplicatingFD.as_raw_fd self, s.nextId)
        :: eraseFd (eraseFd s.table (DuplicatingFD.as_raw_fd self))
             (DuplicatingFD.as_raw_fd self))
        (DuplicatingFD.as_raw_fd self)).isSome = true
    simp [lookupFd]

/-- Witness for C8: target descriptor 3 is closed and rebound to source 5's
resource; the trace shows close-then-dup2; source stays open, 3 is open. -/
theorem spec_C8_clone_from_rebinds_witness :
    (DuplicatingFD.clone_from (DuplicatingFD.wrap 3) (DuplicatingFD.wrap 5)
        ⟨[(5, 0), (3, 1)], 2, 0, [], []⟩).1 = some (DuplicatingFD.wrap 3)
    ∧ (∃ o2, lookupFd [(5, 0), (3, 1)] 3 = some o2
        ∧ (DuplicatingFD.clone_from (DuplicatingFD.wrap 3)
            (DuplicatingFD.wrap 5) ⟨[(5, 0), (3, 1)], 2, 0, [], []⟩).2.trace
            = [] ++ [Ev.closedO 3 o2, Ev.dup2Ev 5 3 3])
    ∧ lookupFd (DuplicatingFD.clone_from (DuplicatingFD.wrap 3)
          (DuplicatingFD.wrap 5) ⟨[(5, 0), (3, 1)], 2, 0, [], []⟩).2.table 5
        = lookupFd [(5, 0), (3, 1)] 5
    ∧ (lookupFd (DuplicatingFD.clone_from (DuplicatingFD.wrap 3)
          (DuplicatingFD.wrap 5) ⟨[(5, 0), (3, 1)], 2, 0, [], []⟩).2.table
        3).isSome = true :=
  spec_C8_clone_from_rebinds (DuplicatingFD.wrap 3) (DuplicatingFD.wrap 5)
    ⟨[(5, 0), (3, 1)], 2, 0, [], []⟩ (by decide) (by decide) (by decide)
    (by decide) (by decide) rfl

/-- C10: wrapping a negative raw value succeeds on every variant, the
accessor returns it unchanged, and teardown is completely inert: the guard
`fd >= 0` in the destructor means no close primitive is ever invoked and the
system state is untouched. -/
theorem spec_C10_negative_wrap_inert (raw : Int) (s : Sys) (hneg : raw < 0) :
    AutoClosingFD.as_raw_fd (AutoClosingFD.wrap raw) = raw
    ∧ AutoClosingFD.drop (AutoClosingFD.wrap raw) s
        = (AutoClosingFD.wrap raw, s)
    ∧ DuplicatingFD.as_raw_fd (DuplicatingFD.wrap raw) = raw
    ∧ DuplicatingFD.drop (DuplicatingFD.wrap raw) s
        = (DuplicatingFD.wrap raw, s)
    ∧ SharedFD.as_raw_fd (SharedFD.wrap raw) = raw
    ∧ (SharedFD.dropInstance (SharedFD.wrap raw) s).2 = s
    ∧ countCloses (AutoClosingFD.drop (AutoClosingFD.wrap raw) s).2.trace raw
        = countCloses s.trace raw := by
  have hnot : ¬ 0 ≤ (AutoClosingFD.wrap raw).fd := by
    show ¬ 0 ≤ raw
    omega
  have hdrop : AutoClosingFD.drop (AutoClosingFD.wrap raw) s
      = (AutoClosingFD.wrap raw, s) := by
    unfold AutoClosingFD.drop
    rw [if_neg hnot]
  refine ⟨rfl, hdrop, rfl, ?_, rfl, ?_, ?_⟩
  · show ((⟨(AutoClosingFD.drop (AutoClosingFD.wrap raw) s).1⟩ :
        DuplicatingFD),
      (AutoClosingFD.drop (AutoClosingFD.wrap raw) s).2)
      = (DuplicatingFD.wrap raw, s)
    rw [hdrop]
    rfl
  · show (AutoClosingFD.drop (AutoClosingFD.wrap raw) s).2 = s
    rw [hdrop]
  · rw [hdrop]

/-- Witness for C10 at `raw = -1`. -/
theorem spec_C10_negative_wrap_inert_witness :
    AutoClosingFD.as_raw_fd (AutoClosingFD.wrap (-1)) = -1
    ∧ AutoClosingFD.drop (AutoClosingFD.wrap (-1)) ⟨[], 0, 0, [], []⟩
        = (AutoClosingFD.wrap (-1), ⟨[], 0, 0, [], []⟩)
    ∧ DuplicatingFD.as_raw_fd (DuplicatingFD.wrap (-1)) = -1
    ∧ DuplicatingFD.drop (DuplicatingFD.wrap (-1)) ⟨[], 0, 0, [], []⟩
        = (DuplicatingFD.wrap (-1), ⟨[], 0, 0, [], []⟩)
    ∧ SharedFD.as_raw_fd (SharedFD.wrap (-1)) = -1
    ∧ (SharedFD.dropInstance (SharedFD.wrap (-1)) ⟨[], 0, 0, [], []⟩).2
        = ⟨[], 0, 0, [], []⟩
    ∧ countCloses (AutoClosingFD.drop (AutoClosingFD.wrap (-1))
          ⟨[], 0, 0, [], []⟩).2.trace (-1)
        = countCloses (Sys.mk [] 0 0 [] []).trace (-1) :=
  spec_C10_negative_wrap_inert (-1) ⟨[], 0, 0, [], []⟩ (by decide)
